import Mathlib

/-!
Verification of the dunamis decorator-routing framework.

This file gives a shallow embedding, in Lean, of the core of the
repository: the path utilities (`src/utils/route.ts`), the metadata
registry (`src/metadata/MetadataStorage.ts`), the decorator layer
(`src/decorators/*.ts`), the Zod validation middleware factory
(`src/validation/zod.ts`), the `HttpError` class, and the Express route
registration engine (`src/express/ExpressRouteRegistry.ts`).  Middleware
functions and controller classes are modelled by opaque identifiers;
JavaScript runtime values flowing through requests are modelled by a small
JSON-like datatype.  Theorems about the embedding settle the specification
claims.
-/

namespace Dunamis

/-! ### Path utilities (`src/utils/route.ts`) -/

/-- The predicate matched by the trailing-slash regex `/\/+$/`. -/
def isSlash (c : Char) : Bool := c = '/'

/-- `normalizedPath.replace(/\/+$/, "")`: remove the maximal run of
trailing `'/'` characters.  `List.rdropWhile` is exactly this operation on
the character list. -/
def dropTrailingSlashes (l : List Char) : List Char :=
  List.rdropWhile isSlash l

/-- `normalizePath` from `src/utils/route.ts`:
if the path is empty return `"/"`; ensure a leading slash; if the result
has length greater than one, strip trailing slashes. -/
def normalizePath (path : String) : String :=
  if path = "" then "/"
  else
    let normalizedPath := if path.data.head? = some '/' then path else "/" ++ path
    if 1 < normalizedPath.length then String.mk (dropTrailingSlashes normalizedPath.data)
    else normalizedPath

/-- `joinPaths` from `src/utils/route.ts`. -/
def joinPaths (basePath subPath : String) : String :=
  let normalizedBase := normalizePath basePath
  let normalizedSub := normalizePath subPath
  if normalizedSub = "/" then normalizedBase
  else if normalizedBase = "/" then normalizedSub
  else normalizedBase ++ normalizedSub

/-- `buildRoutePath(...paths)` from `src/utils/route.ts`: reduce the
segment list with `joinPaths` starting from `""`. -/
def buildRoutePath (paths : List String) : String :=
  if paths = [] then "/" else paths.foldl joinPaths ""

/-! Auxiliary facts about `normalizePath`. -/

lemma isPrefix_head?_eq {l₁ l₂ : List Char} (h : l₁ <+: l₂) (hne : l₁ ≠ []) :
    l₂.head? = l₁.head? := by
  obtain ⟨t, rfl⟩ := h
  cases l₁ with
  | nil => exact absurd rfl hne
  | cons a l => rfl

lemma dropTrailingSlashes_head? {l : List Char} (h : dropTrailingSlashes l ≠ []) :
    (dropTrailingSlashes l).head? = l.head? :=
  (isPrefix_head?_eq (List.rdropWhile_prefix _ _) h).symm

lemma dropTrailingSlashes_getLast? {l : List Char} (h : dropTrailingSlashes l ≠ []) :
    (dropTrailingSlashes l).getLast? ≠ some '/' := by
  intro hlast
  have hnot := List.rdropWhile_last_not isSlash l h
  rw [List.getLast?_eq_getLast _ h] at hlast
  have : isSlash ((dropTrailingSlashes l).getLast h) = true := by
    simp only [Option.some.injEq] at hlast
    simp [isSlash, hlast]
  exact hnot this

lemma dropTrailingSlashes_ne_nil {l : List Char} (c : Char) (hc : c ∈ l)
    (hslash : isSlash c = false) : dropTrailingSlashes l ≠ [] := by
  intro hnil
  have := List.rdropWhile_eq_nil_iff.mp hnil c hc
  rw [hslash] at this
  exact Bool.false_ne_true this

lemma string_length_data (s : String) : s.length = s.data.length := rfl

lemma string_mk_data (s : String) : String.mk s.data = s := rfl

/-- After `normalizePath`, a path that is not a run of two or more slashes
starts with a slash and ends without one (unless it is the root). -/
lemma normalizePath_shape (s : String)
    (h : ¬(2 ≤ s.length ∧ s.data.all isSlash)) :
    (normalizePath s).data.head? = some '/' ∧
      ((normalizePath s).data.length = 1 ∨
        (normalizePath s).data.getLast? ≠ some '/') := by
  by_cases hempty : s = ""
  · subst hempty
    constructor
    · rfl
    · left; rfl
  · have hdne : s.data ≠ [] := by
      intro hd
      exact hempty (by cases s; simp_all)
    by_cases hhead : s.data.head? = some '/'
    · by_cases hlen : 1 < s.length
      · have hres : normalizePath s = String.mk (dropTrailingSlashes s.data) := by
          simp [normalizePath, hempty, hhead, hlen]
        have hne : dropTrailingSlashes s.data ≠ [] := by
          intro hnil
          apply h
          refine ⟨by omega, ?_⟩
          rw [List.all_eq_true]
          intro x hx
          exact List.rdropWhile_eq_nil_iff.mp hnil x hx
        rw [hres]
        refine ⟨?_, Or.inr ?_⟩
        · simpa [dropTrailingSlashes_head? hne] using hhead
        · simpa using dropTrailingSlashes_getLast? hne
      · have hl1 : s.data.length = 1 := by
          rw [string_length_data] at hlen
          have : 1 ≤ s.data.length := List.length_pos.mpr hdne
          omega
        have hres : normalizePath s = s := by
          simp [normalizePath, hempty, hhead, string_length_data, hl1]
        rw [hres]
        exact ⟨hhead, Or.inl hl1⟩
    · have hdata : ("/" ++ s).data = '/' :: s.data := by
        simp [String.data_append]
      have hlen : 1 < ("/" ++ s).length := by
        have h1 : 0 < s.data.length := List.length_pos.mpr hdne
        rw [string_length_data, hdata]
        simp only [List.length_cons]
        omega
      have hlen' : 1 < "/".length + s.length := by
        rw [← String.length_append]; exact hlen
      have hres : normalizePath s = String.mk (dropTrailingSlashes (('/' : Char) :: s.data)) := by
        simp [normalizePath, hempty, hhead, hlen, hlen', hdata]
      obtain ⟨c, d, hcd⟩ := List.exists_cons_of_ne_nil hdne
      have hcnot : isSlash c = false := by
        by_contra hb
        have : c = '/' := by simpa [isSlash] using hb
        apply hhead
        rw [hcd, this]
        rfl
      have hne : dropTrailingSlashes (('/' : Char) :: s.data) ≠ [] := by
        refine dropTrailingSlashes_ne_nil c ?_ hcnot
        rw [hcd]; exact List.mem_cons_of_mem _ (List.mem_cons_self _ _)
      rw [hres]
      refine ⟨?_, Or.inr ?_⟩
      · rw [show (String.mk (dropTrailingSlashes (('/' : Char) :: s.data))).data =
            dropTrailingSlashes (('/' : Char) :: s.data) from rfl]
        rw [dropTrailingSlashes_head? hne]
        rfl
      · simpa using dropTrailingSlashes_getLast? hne

/-- A path that already starts with a slash and has no trailing slash
(or is a single character) is a fixed point of `normalizePath`. -/
lemma normalizePath_fixed (s : String)
    (hhead : s.data.head? = some '/')
    (hlast : s.data.length = 1 ∨ s.data.getLast? ≠ some '/') :
    normalizePath s = s := by
  have hdne : s.data ≠ [] := by
    intro hd; rw [hd] at hhead; exact Option.noConfusion hhead
  have hempty : s ≠ "" := by
    intro he; subst he; exact hdne rfl
  rcases hlast with hl1 | hlast
  · have : ¬ 1 < s.length := by rw [string_length_data, hl1]; omega
    simp [normalizePath, hempty, hhead, this]
  · by_cases hlen : 1 < s.length
    · have hfix : dropTrailingSlashes s.data = s.data := by
        rw [dropTrailingSlashes, List.rdropWhile_eq_self_iff]
        intro hne hp
        apply hlast
        rw [List.getLast?_eq_getLast _ hne]
        have h2 : s.data.getLast hne = '/' := by simpa [isSlash] using hp
        rw [h2]
      simp [normalizePath, hempty, hhead, hlen, hfix, string_mk_data]
    · simp [normalizePath, hempty, hhead, hlen]

/-- C2, counterexample: `normalizePath` is not idempotent on `"//"`
(which normalizes to the empty string, while the empty string normalizes
to `"/"`), and `normalizePath "//a" = "//a"` keeps two leading slashes. -/
theorem normalizePath_c2_counterexample :
    normalizePath "//" = "" ∧
      normalizePath (normalizePath "//") = "/" ∧
      normalizePath (normalizePath "//") ≠ normalizePath "//" ∧
      normalizePath "//a" = "//a" := by
  refine ⟨?_, ?_, ?_, ?_⟩ <;> decide

/-- C2, amended: idempotence and the leading/trailing-slash shape hold for
every string that is not a run of two or more slashes; the concrete
examples `""`, `"/a/"`, `"/a//"` behave as stated; the normalized result
starts with at least one leading slash (not exactly one) and has no
trailing slash unless it is the root path. -/
theorem normalizePath_c2_amended (s : String)
    (h : ¬(2 ≤ s.length ∧ s.data.all isSlash)) :
    normalizePath (normalizePath s) = normalizePath s ∧
      normalizePath "" = "/" ∧
      normalizePath "/a/" = "/a" ∧
      normalizePath "/a//" = "/a" ∧
      (normalizePath s).data.head? = some '/' ∧
      (normalizePath s = "/" ∨ (normalizePath s).data.getLast? ≠ some '/') := by
  obtain ⟨hhead, hlast⟩ := normalizePath_shape s h
  refine ⟨normalizePath_fixed _ hhead hlast, by decide, by decide, by decide, hhead, ?_⟩
  rcases hlast with hl1 | hlast
  · left
    have hdat : (normalizePath s).data = ['/'] := by
      cases hd : (normalizePath s).data with
      | nil => rw [hd] at hhead; exact Option.noConfusion hhead
      | cons a l =>
        rw [hd] at hhead hl1
        simp at hhead hl1
        simp [hhead, hl1]
    exact String.ext (hdat.trans rfl)
  · right; exact hlast

/-- C2, witness for the amended theorem at the concrete input `"a/"`. -/
theorem normalizePath_c2_amended_witness :
    ¬(2 ≤ ("a/" : String).length ∧ ("a/" : String).data.all isSlash) ∧
      (normalizePath (normalizePath "a/") = normalizePath "a/" ∧
        normalizePath "" = "/" ∧
        normalizePath "/a/" = "/a" ∧
        normalizePath "/a//" = "/a" ∧
        (normalizePath "a/").data.head? = some '/' ∧
        (normalizePath "a/" = "/" ∨ (normalizePath "a/").data.getLast? ≠ some '/')) :=
  ⟨by decide, normalizePath_c2_amended "a/" (by decide)⟩

/-! ### JavaScript runtime values

Request-borne values are modelled by a small JSON-like datatype.  `vUndefined`
models JavaScript `undefined`; an absent object property reads as
`vUndefined`.  (Property access on `null`/`undefined` throws in JavaScript;
the embedded factories only ever index object-valued data in the claims,
where association-list lookup is the JavaScript semantics.) -/

inductive JVal where
  | vUndefined : JVal
  | vNull : JVal
  | vBool : Bool → JVal
  | vNum : Int → JVal
  | vStr : String → JVal
  | vObj : List (String × JVal) → JVal

/-- Property read `v[name]` on an object; `undefined` on a primitive. -/
def jsGet (v : JVal) (name : String) : JVal :=
  match v with
  | .vObj fields => (fields.lookup name).getD .vUndefined
  | _ => .vUndefined

/-- Optional-chaining read `v?.[name]`: short-circuits to `undefined` on
`null`/`undefined`, otherwise an ordinary property read. -/
def jsGetOpt (v : JVal) (name : String) : JVal :=
  match v with
  | .vUndefined => .vUndefined
  | .vNull => .vUndefined
  | _ => jsGet v name

/-! ### Requests, responses, validation middleware (`src/validation/zod.ts`) -/

/-- The `req.validatedData` side-slot: one optional entry per section.
An absent property is `vUndefined`. -/
structure ValidatedData where
  body : JVal
  query : JVal
  params : JVal

/-- A fresh `{}` validated-data object. -/
def emptyValidatedData : ValidatedData := ⟨.vUndefined, .vUndefined, .vUndefined⟩

/-- The Express request object, restricted to the properties this library
reads or writes.  `controller` is the per-request stash of the controller
instance (modelled by its identifier). -/
structure Request where
  body : JVal
  query : JVal
  params : JVal
  headers : JVal
  cookies : JVal
  session : JVal
  validatedData : Option ValidatedData
  controller : Option Nat

/-- The Express response object, restricted to what the library consults. -/
structure Response where
  headersSent : Bool
deriving DecidableEq, Repr

/-- The `ValidationType` enum from `src/validation/zod.ts`. -/
inductive ValidationType where
  | body | query | params
deriving DecidableEq, Repr

/-- The string value of a `ValidationType` member. -/
def ValidationType.toStr : ValidationType → String
  | .body => "body"
  | .query => "query"
  | .params => "params"

/-- `req[type]` for a validation section. -/
def reqSection (req : Request) (ty : ValidationType) : JVal :=
  match ty with
  | .body => req.body
  | .query => req.query
  | .params => req.params

/-- `req[type] = result` for a validation section. -/
def setReqSection (req : Request) (ty : ValidationType) (v : JVal) : Request :=
  match ty with
  | .body => { req with body := v }
  | .query => { req with query := v }
  | .params => { req with params := v }

/-- `req.validatedData[type] = result`. -/
def vdSet (vd : ValidatedData) (ty : ValidationType) (v : JVal) : ValidatedData :=
  match ty with
  | .body => { vd with body := v }
  | .query => { vd with query := v }
  | .params => { vd with params := v }

/-- The `HttpError` class (`src/error/HttpError.ts`): message, status and
an optional extra-data payload.  The constructor's status default is 500. -/
structure HttpError where
  message : String
  status : Int
  data : Option JVal

/-- Result of `schema.parse(input)`: a transformed value, a thrown
`ZodError` (represented by the output of `error.format()`), or some other
thrown value. -/
inductive ParseResult where
  | ok : JVal → ParseResult
  | zodError : JVal → ParseResult
  | otherError : JVal → ParseResult

/-- A Zod schema is consumed only through its `parse` operation. -/
def ZodSchema : Type := JVal → ParseResult

/-- `ValidationOptions` from `src/validation/zod.ts`; `none` models an
absent property (the object-spread merge only overrides present keys). -/
structure ValidationOptions where
  stripUnknown : Option Bool
  errorStatus : Option Int
deriving DecidableEq, Repr

/-- Options after merging with the defaults: every field present. -/
structure MergedValidationOptions where
  stripUnknown : Bool
  errorStatus : Int
deriving DecidableEq, Repr

/-- `defaultOptions` from `src/validation/zod.ts`. -/
def defaultValidationOptions : MergedValidationOptions := ⟨true, 400⟩

/-- `{ ...defaultOptions, ...options }`. -/
def mergeValidationOptions (options : Option ValidationOptions) : MergedValidationOptions :=
  match options with
  | none => defaultValidationOptions
  | some o =>
      ⟨o.stripUnknown.getD defaultValidationOptions.stripUnknown,
       o.errorStatus.getD defaultValidationOptions.errorStatus⟩

/-- Outcome of running a middleware on a request: `next()` with the
(possibly mutated) request, or `next(err)` with an `HttpError`, or
`next(err)` with a re-thrown foreign error. -/
inductive NextOutcome where
  | nextOk : Request → NextOutcome
  | nextError : Request → HttpError → NextOutcome
  | nextRaw : Request → JVal → NextOutcome

/-- `createZodValidationMiddleware` from `src/validation/zod.ts`.
On success the section is overwritten with the parsed value and the same
value is stashed in `req.validatedData[type]` (creating the slot on first
use); on a `ZodError` an `HttpError` with message
`"Validation failed for <type>"`, the merged `errorStatus`, and
`{ errors: error.format() }` is forwarded via `next`; other thrown values
are forwarded unchanged. -/
def createZodValidationMiddleware (schema : ZodSchema) (ty : ValidationType)
    (options : Option ValidationOptions) : Request → NextOutcome :=
  let mergedOptions := mergeValidationOptions options
  fun req =>
    match schema (reqSection req ty) with
    | .ok result =>
        let req1 := setReqSection req ty result
        let vd := req1.validatedData.getD emptyValidatedData
        let req2 := { req1 with validatedData := some (vdSet vd ty result) }
        .nextOk req2
    | .zodError formatted =>
        .nextError req
          { message := "Validation failed for " ++ ty.toStr
            status := mergedOptions.errorStatus
            data := some (.vObj [("errors", formatted)]) }
    | .otherError e => .nextRaw req e

/-! ### Parameter extraction (`createParameterFactory` in
`src/express/ExpressRouteRegistry.ts`) -/

/-- Class identity: a class is identified by `cid` (object identity);
`name` models `constructor.name` and `protoMethods` the own method names
of its prototype, constructor excluded. -/
structure ClassRef where
  cid : Nat
  name : String
  protoMethods : List String
deriving DecidableEq, Repr

/-- A value a parameter factory can inject into a handler argument. -/
inductive ParamValue where
  | json : JVal → ParamValue
  | requestObject : Request → ParamValue
  | responseObject : Response → ParamValue

/-- A parameter factory: `(request, response) -> value`. -/
def ParamFactory : Type := Request → Response → ParamValue

/-- The `options.factory` property: either a callable (passes the
`typeof === "function"` check) or some other value. -/
inductive FactoryField where
  | callable : ParamFactory → FactoryField
  | notCallable : JVal → FactoryField

/-- The free-form options bag of a parameter record, restricted to the
one key the engine reads. -/
structure ParamOptions where
  factory : Option FactoryField

/-- `ParameterMetadata` from `src/metadata/types.ts`.  `type` is the
runtime string of the `ParameterType` enum (arbitrary strings model
out-of-enum values); `name` is optional. -/
structure ParameterMetadata where
  target : ClassRef
  method : String
  index : Nat
  type : String
  name : Option String
  options : Option ParamOptions

/-- JavaScript falsiness of the `name` field: `undefined` or `""`. -/
def isFalsyName (name : Option String) : Bool :=
  match name with
  | none => true
  | some s => s = ""

/-- The `=== undefined` test. -/
def isUndefined : JVal → Bool
  | .vUndefined => true
  | _ => false

/-- `createParameterFactory` from `src/express/ExpressRouteRegistry.ts`:
the dispatch table from a parameter's declared type to its extraction
rule.  Unrecognized types, and `custom` without a callable factory, fall
through to `() => undefined`. -/
def createParameterFactory (parameter : ParameterMetadata) : ParamFactory :=
  let name := parameter.name
  let options := parameter.options
  match parameter.type with
  | "request" => fun req _res => .requestObject req
  | "response" => fun _req res => .responseObject res
  | "body" => fun req _res =>
      let validatedBody := match req.validatedData with
        | some vd => vd.body
        | none => JVal.vUndefined
      if !(isUndefined validatedBody) then
        if isFalsyName name || name == some "0" then .json validatedBody
        else .json (jsGet validatedBody (name.getD ""))
      else
        if isFalsyName name || name == some "0" then .json req.body
        else .json (jsGetOpt req.body (name.getD ""))
  | "query" => fun req _res =>
      let validatedQuery := match req.validatedData with
        | some vd => vd.query
        | none => JVal.vUndefined
      if !(isUndefined validatedQuery) then
        if isFalsyName name || name == some "0" then .json validatedQuery
        else .json (jsGet validatedQuery (name.getD ""))
      else
        if isFalsyName name || name == some "0" then .json req.query
        else .json (jsGet req.query (name.getD ""))
  | "param" => fun req _res =>
      let validatedParams := match req.validatedData with
        | some vd => vd.params
        | none => JVal.vUndefined
      if !(isUndefined validatedParams) then
        if !isFalsyName name then .json (jsGet validatedParams (name.getD ""))
        else .json validatedParams
      else
        if !isFalsyName name then .json (jsGet req.params (name.getD ""))
        else .json req.params
  | "headers" => fun req _res =>
      if !isFalsyName name then .json (jsGet req.headers (name.getD "").toLower)
      else .json req.headers
  | "cookies" => fun req _res =>
      if !isFalsyName name then .json (jsGetOpt req.cookies (name.getD ""))
      else .json req.cookies
  | "session" => fun req _res => .json req.session
  | "custom" =>
      match options with
      | some ⟨some (FactoryField.callable f)⟩ => f
      | _ => fun _req _res => .json JVal.vUndefined
  | _ => fun _req _res => .json JVal.vUndefined

/-! ### Claims C7, C10, C6, C8 -/

/-- C7: when schema validation of a request section fails, the middleware
forwards via the `next`-with-error channel (never by throwing) an
`HttpError` whose message is `"Validation failed for <section>"`, whose
status is `options.errorStatus` (400 when not supplied), and whose data
payload wraps the schema library's structured issue list; the request —
in particular the section and the validated-data slot — is left
unchanged (the outcome carries the original request). -/
theorem zodValidation_failure_c7 (schema : ZodSchema) (ty : ValidationType)
    (options : Option ValidationOptions) (req : Request) (formatted : JVal)
    (hfail : schema (reqSection req ty) = ParseResult.zodError formatted) :
    createZodValidationMiddleware schema ty options req =
      NextOutcome.nextError req
        { message := "Validation failed for " ++ ty.toStr
          status := (mergeValidationOptions options).errorStatus
          data := some (JVal.vObj [("errors", formatted)]) } ∧
    (options = none → (mergeValidationOptions options).errorStatus = 400) ∧
    (∀ o, options = some o → o.errorStatus = none →
      (mergeValidationOptions options).errorStatus = 400) ∧
    (∀ o es, options = some o → o.errorStatus = some es →
      (mergeValidationOptions options).errorStatus = es) := by
  refine ⟨?_, ?_, ?_, ?_⟩
  · simp only [createZodValidationMiddleware, hfail]
  · intro h; subst h; rfl
  · intro o h hes; subst h
    simp [mergeValidationOptions, hes, defaultValidationOptions]
  · intro o es h hes; subst h; simp [mergeValidationOptions, hes]

/-- C7, witness: a failing body validation with default options at a
concrete request. -/
theorem zodValidation_failure_c7_witness :
    ((fun _ => ParseResult.zodError (JVal.vStr "issues")) : ZodSchema)
        (reqSection ⟨.vObj [("n", .vStr "x")], .vObj [], .vObj [], .vObj [], .vUndefined,
          .vUndefined, none, none⟩ ValidationType.body) =
      ParseResult.zodError (JVal.vStr "issues") ∧
    (createZodValidationMiddleware
        (fun _ => ParseResult.zodError (JVal.vStr "issues")) ValidationType.body none
        ⟨.vObj [("n", .vStr "x")], .vObj [], .vObj [], .vObj [], .vUndefined,
          .vUndefined, none, none⟩ =
      NextOutcome.nextError
        ⟨.vObj [("n", .vStr "x")], .vObj [], .vObj [], .vObj [], .vUndefined,
          .vUndefined, none, none⟩
        { message := "Validation failed for " ++ ValidationType.body.toStr
          status := (mergeValidationOptions none).errorStatus
          data := some (JVal.vObj [("errors", JVal.vStr "issues")]) } ∧
      (none = (none : Option ValidationOptions) →
        (mergeValidationOptions none).errorStatus = 400) ∧
      (∀ o, (none : Option ValidationOptions) = some o → o.errorStatus = none →
        (mergeValidationOptions none).errorStatus = 400) ∧
      (∀ o es, (none : Option ValidationOptions) = some o → o.errorStatus = some es →
        (mergeValidationOptions none).errorStatus = es)) :=
  ⟨rfl, zodValidation_failure_c7 _ _ _ _ _ rfl⟩

/-- C10: the `stripUnknown` option is inert.  Any two option values whose
merged `errorStatus` agree — in particular any two differing only in
`stripUnknown`, whether `true`, `false` or omitted — produce middleware
with identical behavior on every request. -/
theorem stripUnknown_inert_c10 (schema : ZodSchema) (ty : ValidationType)
    (o₁ o₂ : Option ValidationOptions)
    (h : (mergeValidationOptions o₁).errorStatus =
      (mergeValidationOptions o₂).errorStatus) :
    ∀ req, createZodValidationMiddleware schema ty o₁ req =
      createZodValidationMiddleware schema ty o₂ req := by
  intro req
  simp only [createZodValidationMiddleware]
  cases schema (reqSection req ty) <;> simp [h]

/-- C10, witness: `stripUnknown := some true` versus `stripUnknown :=
some false` (with `errorStatus` omitted) at a concrete schema/request. -/
theorem stripUnknown_inert_c10_witness :
    (mergeValidationOptions (some ⟨some true, none⟩)).errorStatus =
      (mergeValidationOptions (some ⟨some false, none⟩)).errorStatus ∧
    createZodValidationMiddleware (fun v => ParseResult.ok v) ValidationType.query
        (some ⟨some true, none⟩)
        ⟨.vObj [], .vObj [("q", .vStr "x")], .vObj [], .vObj [], .vUndefined, .vUndefined,
          none, none⟩ =
      createZodValidationMiddleware (fun v => ParseResult.ok v) ValidationType.query
        (some ⟨some false, none⟩)
        ⟨.vObj [], .vObj [("q", .vStr "x")], .vObj [], .vObj [], .vUndefined, .vUndefined,
          none, none⟩ :=
  ⟨rfl, stripUnknown_inert_c10 _ _ _ _ rfl _⟩

/-- The expression `req.validatedData?.body`. -/
def validatedBodyOf (req : Request) : JVal :=
  match req.validatedData with
  | some vd => vd.body
  | none => JVal.vUndefined

/-- The request produced by a successful validation middleware run:
section overwritten, parsed value stashed in the validated-data slot. -/
def validatedAfter (req : Request) (ty : ValidationType) (v : JVal) : Request :=
  { setReqSection req ty v with
    validatedData := some (vdSet
      ((setReqSection req ty v).validatedData.getD emptyValidatedData) ty v) }

lemma zodMiddleware_ok (schema : ZodSchema) (ty : ValidationType)
    (options : Option ValidationOptions) (req : Request) (v : JVal)
    (hok : schema (reqSection req ty) = ParseResult.ok v) :
    createZodValidationMiddleware schema ty options req =
      NextOutcome.nextOk (validatedAfter req ty v) := by
  simp only [createZodValidationMiddleware, hok, validatedAfter]

lemma validatedBodyOf_validatedAfter (req : Request) (v : JVal) :
    validatedBodyOf (validatedAfter req ValidationType.body v) = v := by
  cases hvd : req.validatedData <;>
    simp [validatedBodyOf, validatedAfter, setReqSection, vdSet, hvd]

/-- C6: validated data takes precedence over raw data in body extraction.
After a body-validation middleware succeeds with parsed value `v`, an
unnamed body parameter (no name, or the defaulted name `"0"`) extracts
`v`, the transformed body, and the validated slot holds `v`; on any
request without validated body data, extraction falls back to the raw
body — whole for an unnamed parameter, named field otherwise. -/
theorem body_validated_precedence_c6
    (schema : ZodSchema) (options : Option ValidationOptions) (req : Request)
    (res : Response) (v : JVal) (md : ParameterMetadata)
    (hty : md.type = "body")
    (hname : isFalsyName md.name = true ∨ md.name = some "0")
    (hok : schema req.body = ParseResult.ok v) :
    (∃ req', createZodValidationMiddleware schema ValidationType.body options req =
        NextOutcome.nextOk req' ∧
      validatedBodyOf req' = v ∧
      createParameterFactory md req' res = ParamValue.json v) ∧
    (∀ req₂ : Request, validatedBodyOf req₂ = JVal.vUndefined →
      createParameterFactory md req₂ res = ParamValue.json req₂.body) ∧
    (∀ (md₂ : ParameterMetadata) (req₂ : Request), md₂.type = "body" →
      validatedBodyOf req₂ = JVal.vUndefined →
      isFalsyName md₂.name = false → md₂.name ≠ some "0" →
      createParameterFactory md₂ req₂ res =
        ParamValue.json (jsGetOpt req₂.body (md₂.name.getD ""))) := by
  have hnameb : (isFalsyName md.name || md.name == some "0") = true := by
    rcases hname with h | h
    · simp [h]
    · simp [h]
  refine ⟨⟨validatedAfter req ValidationType.body v, ?_, ?_, ?_⟩, ?_, ?_⟩
  · exact zodMiddleware_ok schema ValidationType.body options req v hok
  · exact validatedBodyOf_validatedAfter req v
  · have hb : validatedBodyOf (validatedAfter req ValidationType.body v) = v :=
      validatedBodyOf_validatedAfter req v
    have hraw : (validatedAfter req ValidationType.body v).body = v := by
      simp [validatedAfter, setReqSection]
    simp only [createParameterFactory, hty]
    rw [show (match (validatedAfter req ValidationType.body v).validatedData with
      | some vd => vd.body
      | none => JVal.vUndefined) = v from hb]
    cases hu : isUndefined v with
    | true =>
        have hvu : v = JVal.vUndefined := by cases v <;> simp_all [isUndefined]
        subst hvu
        simp [hnameb, hraw, isUndefined]
    | false => simp [hu, hnameb]
  · intro req₂ hv
    simp only [createParameterFactory, hty]
    rw [show (match req₂.validatedData with
      | some vd => vd.body
      | none => JVal.vUndefined) = JVal.vUndefined from hv]
    simp [hnameb, isUndefined]
  · intro md₂ req₂ hty₂ hv hf h0
    simp only [createParameterFactory, hty₂]
    rw [show (match req₂.validatedData with
      | some vd => vd.body
      | none => JVal.vUndefined) = JVal.vUndefined from hv]
    have hb0 : (isFalsyName md₂.name || md₂.name == some "0") = false := by
      cases hn : md₂.name with
      | none => rw [hn] at hf; simp [isFalsyName] at hf
      | some s =>
          rw [hn] at hf h0
          simp only [Bool.or_eq_false_iff]
          refine ⟨hf, ?_⟩
          simpa using h0
    simp [hb0, isUndefined]

/-- C6, witness: the P4 scenario — raw body `{n: "5"}`, schema coercing to
`{n: 5}`, unnamed body parameter. -/
theorem body_validated_precedence_c6_witness :
    (⟨0, "C", ["m"]⟩ : ClassRef).name = "C" ∧
    (∃ req', createZodValidationMiddleware
        (fun _ => ParseResult.ok (JVal.vObj [("n", JVal.vNum 5)]))
        ValidationType.body none
        ⟨.vObj [("n", .vStr "5")], .vObj [], .vObj [], .vObj [], .vUndefined, .vUndefined,
          none, none⟩ = NextOutcome.nextOk req' ∧
      validatedBodyOf req' = JVal.vObj [("n", JVal.vNum 5)] ∧
      createParameterFactory ⟨⟨0, "C", ["m"]⟩, "m", 0, "body", none, none⟩ req'
        ⟨false⟩ = ParamValue.json (JVal.vObj [("n", JVal.vNum 5)])) := by
  refine ⟨rfl, ?_⟩
  exact (body_validated_precedence_c6
    (fun _ => ParseResult.ok (JVal.vObj [("n", JVal.vNum 5)])) none
    ⟨.vObj [("n", .vStr "5")], .vObj [], .vObj [], .vObj [], .vUndefined, .vUndefined,
      none, none⟩ ⟨false⟩ (JVal.vObj [("n", JVal.vNum 5)])
    ⟨⟨0, "C", ["m"]⟩, "m", 0, "body", none, none⟩ rfl (Or.inl rfl) rfl).1

/-- The recognized values of the `ParameterType` string enum
(`src/constants.ts`). -/
def recognizedParameterTypes : List String :=
  ["request", "response", "body", "query", "param", "headers", "cookies",
   "session", "custom"]

/-- Whether a parameter record's options carry a callable factory
(`options?.factory && typeof options.factory === "function"`). -/
def hasCallableFactory (options : Option ParamOptions) : Bool :=
  match options with
  | some o =>
      match o.factory with
      | some (FactoryField.callable _) => true
      | _ => false
  | none => false

/-- C8: parameter extraction is total and never throws.  For a record
whose type is outside the recognized enumeration, or of kind `custom`
without a callable factory, the dispatcher still returns a function, and
applying it to any request/response pair yields `undefined`. -/
theorem paramFactory_undefined_c8 (md : ParameterMetadata) (req : Request)
    (res : Response)
    (h : md.type ∉ recognizedParameterTypes ∨
      (md.type = "custom" ∧ hasCallableFactory md.options = false)) :
    createParameterFactory md req res = ParamValue.json JVal.vUndefined := by
  rcases h with h | ⟨hty, hopt⟩
  · simp only [recognizedParameterTypes, List.mem_cons, List.not_mem_nil,
      or_false, not_or] at h
    simp only [createParameterFactory]
    split <;> first
      | rfl
      | simp_all
  · simp only [createParameterFactory, hty]
    rcases hop : md.options with _ | ⟨_ | (f | w)⟩
    · rfl
    · rfl
    · rw [hop] at hopt; simp [hasCallableFactory] at hopt
    · rfl

/-- C8, witness: an out-of-enum type `"bogus"` and a `custom` record with
a non-callable factory, each evaluated at a concrete request. -/
theorem paramFactory_undefined_c8_witness :
    (("bogus" : String) ∉ recognizedParameterTypes ∨
      (("bogus" : String) = "custom" ∧
        hasCallableFactory (none : Option ParamOptions) = false)) ∧
    createParameterFactory ⟨⟨0, "C", ["m"]⟩, "m", 0, "bogus", none, none⟩
      ⟨.vObj [], .vObj [], .vObj [], .vObj [], .vUndefined, .vUndefined, none, none⟩
      ⟨false⟩ = ParamValue.json JVal.vUndefined :=
  ⟨Or.inl (by decide), paramFactory_undefined_c8
    ⟨⟨0, "C", ["m"]⟩, "m", 0, "bogus", none, none⟩
    ⟨.vObj [], .vObj [], .vObj [], .vObj [], .vUndefined, .vUndefined, none, none⟩
    ⟨false⟩ (Or.inl (by decide))⟩

/-! ### The metadata registry (`src/metadata/MetadataStorage.ts`)

Middleware functions and error-handler functions are modelled by opaque
identifiers.  JavaScript `Map`s are modelled by association lists with
set-in-place update (a `Map.set` on an existing key keeps its insertion
position). -/

abbrev Mw := Nat

/-- `Map.get`. -/
def mapGet {κ α : Type} [DecidableEq κ] : List (κ × α) → κ → Option α
  | [], _ => none
  | (k', v) :: rest, k => if k' = k then some v else mapGet rest k

/-- `Map.set`: overwrite in place, or append a new entry. -/
def mapSet {κ α : Type} [DecidableEq κ] : List (κ × α) → κ → α → List (κ × α)
  | [], k, v => [(k, v)]
  | (k', v') :: rest, k, v =>
      if k' = k then (k, v) :: rest else (k', v') :: mapSet rest k v

/-- Mutation through an object reference held in a map: update the value
at a key if present, otherwise no effect. -/
def mapUpdate {κ α : Type} [DecidableEq κ] : List (κ × α) → κ → (α → α) → List (κ × α)
  | [], _, _ => []
  | (k', v') :: rest, k, f =>
      if k' = k then (k', f v') :: rest else (k', v') :: mapUpdate rest k f

/-- `ControllerMetadata` from `src/metadata/types.ts`.  `prefixStr` models
the `prefix` field (renamed in the embedding). -/
structure ControllerMetadata where
  target : ClassRef
  prefixStr : String
  middleware : List Mw
deriving DecidableEq, Repr

/-- `MethodMetadata` from `src/metadata/types.ts`. -/
structure MethodMetadata where
  target : ClassRef
  method : String
  httpMethod : String
  path : String
  middleware : List Mw
deriving DecidableEq, Repr

/-- `MiddlewareMetadata` from `src/metadata/types.ts`: `method` absent
means controller scope. -/
structure MiddlewareMetadata where
  target : ClassRef
  method : Option String
  middleware : Mw
deriving DecidableEq, Repr

/-- The `MetadataStorage` collections.  `errorHandlers` is modelled from
the spec: the storage source in the tree lacks the error-handler
collection although its accessors are called, and the spec states it is a
single-slot map per target, overwritten on re-registration. -/
structure MetadataStorage where
  controllers : List (ClassRef × ControllerMetadata)
  methods : List (String × List MethodMetadata)
  parameters : List (String × List ParameterMetadata)
  middleware : List (String × List MiddlewareMetadata)
  errorHandlers : List (ClassRef × Mw)

/-- The storage of a fresh process. -/
def emptyStorage : MetadataStorage := ⟨[], [], [], [], []⟩

/-- `getControllerKey`: the "unique" key of a controller is its class
NAME, not its identity. -/
def getControllerKey (target : ClassRef) : String := target.name

/-- `getMethodKey`: class name and method name joined by `"_"`. -/
def getMethodKey (target : ClassRef) (methodName : String) : String :=
  target.name ++ "_" ++ methodName

/-- `addControllerMetadata`: keyed by the class object itself. -/
def addControllerMetadata (st : MetadataStorage) (metadata : ControllerMetadata) :
    MetadataStorage :=
  { st with controllers := mapSet st.controllers metadata.target metadata }

/-- `addMethodMetadata`: append to the bucket at the method key. -/
def addMethodMetadata (st : MetadataStorage) (metadata : MethodMetadata) :
    MetadataStorage :=
  let key := getMethodKey metadata.target metadata.method
  { st with methods :=
      mapSet st.methods key ((mapGet st.methods key).getD [] ++ [metadata]) }

/-- `addParameterMetadata`: append to the bucket at the method key. -/
def addParameterMetadata (st : MetadataStorage) (metadata : ParameterMetadata) :
    MetadataStorage :=
  let key := getMethodKey metadata.target metadata.method
  { st with parameters :=
      mapSet st.parameters key ((mapGet st.parameters key).getD [] ++ [metadata]) }

/-- `addMiddlewareMetadata`: method scope when `method` is set, controller
scope otherwise. -/
def addMiddlewareMetadata (st : MetadataStorage) (metadata : MiddlewareMetadata) :
    MetadataStorage :=
  let key := match metadata.method with
    | some m => getMethodKey metadata.target m
    | none => getControllerKey metadata.target
  { st with middleware :=
      mapSet st.middleware key ((mapGet st.middleware key).getD [] ++ [metadata]) }

/-- `addErrorHandlerMetadata` (modelled from the spec, see
`MetadataStorage`): set the single handler slot for the target. -/
def addErrorHandlerMetadata (st : MetadataStorage) (target : ClassRef)
    (handler : Mw) : MetadataStorage :=
  { st with errorHandlers := mapSet st.errorHandlers target handler }

/-- `getControllerMetadata`. -/
def getControllerMetadata (st : MetadataStorage) (target : ClassRef) :
    Option ControllerMetadata :=
  mapGet st.controllers target

/-- `getControllers`. -/
def getControllers (st : MetadataStorage) : List ControllerMetadata :=
  st.controllers.map (·.2)

/-- `getControllerMethodMetadata`: enumerate the prototype's own method
names and collect each name's bucket. -/
def getControllerMethodMetadata (st : MetadataStorage) (target : ClassRef) :
    List MethodMetadata :=
  (target.protoMethods.map
    (fun m => (mapGet st.methods (getMethodKey target m)).getD [])).flatten

/-- `getMethodParameterMetadata`. -/
def getMethodParameterMetadata (st : MetadataStorage) (target : ClassRef)
    (methodName : String) : List ParameterMetadata :=
  (mapGet st.parameters (getMethodKey target methodName)).getD []

/-- `getControllerMiddleware`. -/
def getControllerMiddleware (st : MetadataStorage) (target : ClassRef) :
    List MiddlewareMetadata :=
  (mapGet st.middleware (getControllerKey target)).getD []

/-- `getMethodMiddleware`. -/
def getMethodMiddleware (st : MetadataStorage) (target : ClassRef)
    (methodName : String) : List MiddlewareMetadata :=
  (mapGet st.middleware (getMethodKey target methodName)).getD []

/-- `getErrorHandlerMetadata` (modelled from the spec, see
`MetadataStorage`). -/
def getErrorHandlerMetadata (st : MetadataStorage) (target : ClassRef) :
    Option Mw :=
  mapGet st.errorHandlers target

/-- `clear()`: empties every collection of the storage. -/
def clearStorage (_st : MetadataStorage) : MetadataStorage :=
  ⟨[], [], [], [], []⟩

/-! ### Reflection side-channel and the decorator layer
(`src/utils/metadata.ts`, `src/decorators/*.ts`)

`defineMetadata(METADATA_KEY.CONTROLLER, true, target)` records a flag in
the global `reflect-metadata` store, keyed by the class object.  The
decorators also mirror prefixes, paths and middleware lists into that
store; those mirror entries are never read by any embedded component and
are not modelled. -/

/-- The reflection entries the embedded code reads: which classes carry
the `dunamisjs:controller` key. -/
structure ReflectStore where
  controllerFlag : List ClassRef

/-- Global mutable state: the metadata storage singleton plus the
reflection store. -/
structure World where
  storage : MetadataStorage
  reflect : ReflectStore

/-- A fresh process. -/
def emptyWorld : World := ⟨emptyStorage, ⟨[]⟩⟩

/-- `Reflect.defineMetadata(CONTROLLER, true, target)`. -/
def defineControllerFlag (r : ReflectStore) (target : ClassRef) : ReflectStore :=
  if target ∈ r.controllerFlag then r
  else { r with controllerFlag := r.controllerFlag ++ [target] }

/-- `MetadataStorage.isController`: implemented with
`hasMetadata(METADATA_KEY.CONTROLLER, target)` — it consults the
reflection store, not the `controllers` collection. -/
def isController (w : World) (target : ClassRef) : Bool :=
  decide (target ∈ w.reflect.controllerFlag)

/-- `metadataStorage.clear()` invoked against the world: the reflection
store is untouched. -/
def clearWorld (w : World) : World :=
  { w with storage := clearStorage w.storage }

/-- Argument of the `JSONController` decorator factory: a bare prefix
string or an options object. -/
structure JSONControllerOptions where
  prefixStr : Option String
  middleware : Option (List Mw)

/-- The `JSONController` class decorator (`src/decorators/controller.ts`):
sets the controller reflection flag, registers the controller record, and
additionally registers one controller-scoped `MiddlewareMetadata` per
middleware function given in the options.  (`options.prefix || ""` and
`options.middleware || []` are `getD` because an empty string defaults to
`""` and arrays are always truthy.) -/
def JSONController (prefixOrOptions : Sum String JSONControllerOptions)
    (target : ClassRef) (w : World) : World :=
  let options : JSONControllerOptions :=
    match prefixOrOptions with
    | .inl s => ⟨some s, none⟩
    | .inr o => o
  let pfx := options.prefixStr.getD ""
  let mw := options.middleware.getD []
  let reflect1 := defineControllerFlag w.reflect target
  let st1 := addControllerMetadata w.storage ⟨target, pfx, mw⟩
  let st2 := mw.foldl (fun st m => addMiddlewareMetadata st ⟨target, none, m⟩) st1
  ⟨st2, reflect1⟩

/-- Argument of an HTTP-verb decorator factory. -/
structure MethodOptions where
  path : Option String
  middleware : Option (List Mw)

/-- `createMethodDecorator` (`src/decorators/method.ts`): registers one
`MethodMetadata`.  It does NOT register separate middleware records. -/
def createMethodDecorator (httpMethod : String)
    (pathOrOptions : Sum String MethodOptions) (target : ClassRef)
    (methodName : String) (w : World) : World :=
  let options : MethodOptions :=
    match pathOrOptions with
    | .inl s => ⟨some s, none⟩
    | .inr o => o
  let path := options.path.getD ""
  let mw := options.middleware.getD []
  { w with storage :=
      (addMethodMetadata w.storage ⟨target, methodName, httpMethod, path, mw⟩) }

/-- The `Get` decorator. -/
def Get (pathOrOptions : Sum String MethodOptions) (target : ClassRef)
    (methodName : String) (w : World) : World :=
  createMethodDecorator "get" pathOrOptions target methodName w

/-- The `Post` decorator. -/
def Post (pathOrOptions : Sum String MethodOptions) (target : ClassRef)
    (methodName : String) (w : World) : World :=
  createMethodDecorator "post" pathOrOptions target methodName w

/-- The `UseMiddleware` decorator (`src/decorators/middleware.ts`):
appends one `MiddlewareMetadata` per function, method-scoped when a
property key is present, controller-scoped otherwise. -/
def UseMiddleware (middleware : List Mw) (target : ClassRef)
    (propertyKey : Option String) (w : World) : World :=
  match propertyKey with
  | some m =>
      { w with storage := (middleware.foldl
          (fun st f => addMiddlewareMetadata st ⟨target, some m, f⟩) w.storage) }
  | none =>
      { w with storage := (middleware.foldl
          (fun st f => addMiddlewareMetadata st ⟨target, none, f⟩) w.storage) }

/-- `createParameterDecorator` (`src/decorators/param.ts`): the stored
name is `name || parameterIndex.toString()`. -/
def createParameterDecorator (ty : String) (name : Option String)
    (options : Option ParamOptions) (target : ClassRef) (methodName : String)
    (parameterIndex : Nat) (w : World) : World :=
  let paramName := match name with
    | some s => if s = "" then toString parameterIndex else s
    | none => toString parameterIndex
  { w with storage := (addParameterMetadata w.storage
      ⟨target, methodName, parameterIndex, ty, some paramName, options⟩) }

/-- The `Param` decorator (route parameters). -/
def Param (name : String) (options : Option ParamOptions) (target : ClassRef)
    (methodName : String) (parameterIndex : Nat) (w : World) : World :=
  createParameterDecorator "param" (some name) options target methodName
    parameterIndex w

/-! ### Claims C3 and C4 -/

lemma mapGet_mem {κ α : Type} [DecidableEq κ] {m : List (κ × α)} {k : κ} {v : α}
    (h : mapGet m k = some v) : (k, v) ∈ m := by
  induction m with
  | nil => simp [mapGet] at h
  | cons p rest ih =>
      obtain ⟨k', v'⟩ := p
      by_cases hk : k' = k
      · subst hk
        simp [mapGet] at h
        subst h
        exact List.mem_cons_self _ _
      · simp [mapGet, hk] at h
        exact List.mem_cons_of_mem _ (ih h)

/-- Bucket well-formedness: every record sits in the bucket of its own
key.  These hold for any storage built through the `add*` operations. -/
abbrev methodBucketWF (st : MetadataStorage) : Prop :=
  ∀ p ∈ st.methods, ∀ r ∈ p.2, getMethodKey r.target r.method = p.1

abbrev parameterBucketWF (st : MetadataStorage) : Prop :=
  ∀ p ∈ st.parameters, ∀ r ∈ p.2, getMethodKey r.target r.method = p.1

abbrev middlewareKey (r : MiddlewareMetadata) : String :=
  match r.method with
  | some m => getMethodKey r.target m
  | none => getControllerKey r.target

abbrev middlewareBucketWF (st : MetadataStorage) : Prop :=
  ∀ p ∈ st.middleware, ∀ r ∈ p.2, middlewareKey r = p.1

abbrev StorageWF (st : MetadataStorage) : Prop :=
  methodBucketWF st ∧ parameterBucketWF st ∧ middlewareBucketWF st

/-- The two same-named but distinct classes of the C3 counterexample. -/
def c3A : ClassRef := ⟨0, "UserController", ["m"]⟩

def c3B : ClassRef := ⟨1, "UserController", ["m"]⟩

/-- Declaration phase of the C3 counterexample: `c3A` is decorated as a
controller at prefix `/users` with one middleware, and its method `m` gets
one `Param`-decorated parameter.  `c3B` is never decorated. -/
def c3World : World :=
  Param "id" none c3A "m" 0
    (JSONController (Sum.inr ⟨some "/users", some [5]⟩) c3A emptyWorld)

/-- C3, counterexample: the registry keys method, parameter and middleware
records by class NAME, so the records stored for `c3A` are returned by
lookups performed with the distinct same-named class `c3B`. -/
theorem registry_identity_c3_counterexample :
    c3A ≠ c3B ∧
    getMethodParameterMetadata c3World.storage c3B "m" =
      [⟨c3A, "m", 0, "param", some "id", none⟩] ∧
    getControllerMiddleware c3World.storage c3B = [⟨c3A, none, 5⟩] ∧
    getControllerMetadata c3World.storage c3B = none := by
  refine ⟨by decide, rfl, rfl, rfl⟩

/-- C3, amended: `getControllerMetadata` is keyed by class identity, but
method, parameter and middleware lookups are keyed by the strings
`name` and `name_method`.  Records stored for class `A` are never
returned by lookups with class `B` precisely when the string keys differ;
two distinct classes with the same name (or whose `name_method` strings
coincide) share records. -/
theorem registry_identity_c3_amended (st : MetadataStorage) (hwf : StorageWF st)
    (A B : ClassRef) (mA mB : String) :
    (getMethodKey A mA ≠ getMethodKey B mB →
      ∀ r ∈ getMethodParameterMetadata st B mB, ¬(r.target = A ∧ r.method = mA)) ∧
    (getMethodKey A mA ≠ getMethodKey B mB →
      ∀ r ∈ getMethodMiddleware st B mB, ¬(r.target = A ∧ r.method = some mA)) ∧
    (getControllerKey A ≠ getControllerKey B →
      ∀ r ∈ getControllerMiddleware st B, ¬(r.target = A ∧ r.method = none)) ∧
    ((∀ m', getMethodKey A mA ≠ getMethodKey B m') →
      ∀ r ∈ getControllerMethodMetadata st B, ¬(r.target = A ∧ r.method = mA)) ∧
    (A.name = B.name →
      getMethodParameterMetadata st A mB = getMethodParameterMetadata st B mB ∧
      getControllerMiddleware st A = getControllerMiddleware st B ∧
      getMethodMiddleware st A mB = getMethodMiddleware st B mB) := by
  obtain ⟨hm, hp, hmw⟩ := hwf
  refine ⟨?_, ?_, ?_, ?_, ?_⟩
  · intro hkey r hr ⟨hA, hM⟩
    rw [getMethodParameterMetadata] at hr
    cases hb : mapGet st.parameters (getMethodKey B mB) with
    | none => rw [hb] at hr; simp at hr
    | some bucket =>
        rw [hb] at hr; simp at hr
        have := hp _ (mapGet_mem hb) r hr
        rw [hA, hM] at this
        exact hkey this
  · intro hkey r hr ⟨hA, hM⟩
    rw [getMethodMiddleware] at hr
    cases hb : mapGet st.middleware (getMethodKey B mB) with
    | none => rw [hb] at hr; simp at hr
    | some bucket =>
        rw [hb] at hr; simp at hr
        have := hmw _ (mapGet_mem hb) r hr
        rw [middlewareKey, hM, hA] at this
        exact hkey this
  · intro hkey r hr ⟨hA, hM⟩
    rw [getControllerMiddleware] at hr
    cases hb : mapGet st.middleware (getControllerKey B) with
    | none => rw [hb] at hr; simp at hr
    | some bucket =>
        rw [hb] at hr; simp at hr
        have := hmw _ (mapGet_mem hb) r hr
        rw [middlewareKey, hM, hA] at this
        exact hkey this
  · intro hkey r hr ⟨hA, hM⟩
    rw [getControllerMethodMetadata] at hr
    rw [List.mem_flatten] at hr
    obtain ⟨bucket, hbmem, hrb⟩ := hr
    rw [List.mem_map] at hbmem
    obtain ⟨m', _, hbeq⟩ := hbmem
    cases hb : mapGet st.methods (getMethodKey B m') with
    | none => rw [hb] at hbeq; subst hbeq; simp at hrb
    | some bucket' =>
        rw [hb] at hbeq
        simp at hbeq
        subst hbeq
        have := hm _ (mapGet_mem hb) r hrb
        rw [hA, hM] at this
        exact hkey m' this
  · intro hname
    have h1 : getMethodKey A mB = getMethodKey B mB := by
      rw [getMethodKey, getMethodKey, hname]
    have h2 : getControllerKey A = getControllerKey B := hname
    exact ⟨by rw [getMethodParameterMetadata, getMethodParameterMetadata, h1],
      by rw [getControllerMiddleware, getControllerMiddleware, h2],
      by rw [getMethodMiddleware, getMethodMiddleware, h1]⟩

/-- C3, witness for the amended theorem: the counterexample storage is
well-formed, and the separation clauses apply to a class named `Other`. -/
theorem registry_identity_c3_amended_witness :
    StorageWF c3World.storage ∧
    (getMethodKey ⟨2, "Other", []⟩ "m" ≠ getMethodKey c3B "m" →
      ∀ r ∈ getMethodParameterMetadata c3World.storage c3B "m",
        ¬(r.target = ⟨2, "Other", []⟩ ∧ r.method = "m")) :=
  ⟨by decide,
    (registry_identity_c3_amended c3World.storage (by decide)
      ⟨2, "Other", []⟩ c3B "m" "m").1⟩

/-- The controller class of the C4 counterexample. -/
def c4Class : ClassRef := ⟨0, "TestController", ["index"]⟩

/-- C4, counterexample: after decorating `c4Class` and then calling
`clear()`, the controller record is gone but `isController` still answers
`true`, because it consults the reflection flag, which `clear()` does not
remove. -/
theorem isController_c4_counterexample :
    isController (clearWorld (JSONController (Sum.inl "/t") c4Class emptyWorld))
      c4Class = true ∧
    getControllerMetadata
      (clearWorld (JSONController (Sum.inl "/t") c4Class emptyWorld)).storage
      c4Class = none := by
  refine ⟨by decide, rfl⟩

/-- C4, amended: `isController(T)` answers true iff the controller
reflection flag is set on `T`; the flag is set by the controller decorator
and survives `clear()`, which empties only the registry collections —
so after `clear()` a previously decorated class still reports `true`
while its controller record is gone. -/
theorem isController_c4_amended (w : World) (T : ClassRef)
    (p : Sum String JSONControllerOptions) :
    isController (clearWorld w) T = isController w T ∧
    isController (JSONController p T w) T = true ∧
    getControllerMetadata (clearWorld (JSONController p T w)).storage T = none := by
  refine ⟨rfl, ?_, rfl⟩
  by_cases h : T ∈ w.reflect.controllerFlag <;>
    simp [isController, JSONController, defineControllerFlag, h]

/-! ### The route registration engine (`src/express/ExpressRouteRegistry.ts`)

A `Router` is modelled by what the engine installs on it: the hard-wired
JSON body parser, the `router.use` middleware in order, the registered
routes (verb, path, middleware chain) in order, and any controller error
handlers.  For a request matched by a route, Express runs the `use`
layers in order and then the route's own handler chain, so the declared
middleware executed for that route is `use ++ route.middleware`
(`executedChain`).  `createMiddlewareHandler` wraps each middleware
function in an Express adapter one-to-one, preserving order, so
middleware identifiers stand for their converted handlers. -/

structure Route where
  httpMethod : String
  path : String
  middleware : List Mw
deriving DecidableEq, Repr

structure Router where
  jsonMw : Bool
  usedMiddleware : List Mw
  routes : List Route
  errorHandlers : List Mw
deriving DecidableEq, Repr

/-- A fresh `Router()`. -/
def freshRouter : Router := ⟨false, [], [], []⟩

/-- `convertMiddlewareToHandlers` (`src/express/middleware.ts`): element
by element, in order; the wrapper preserves the underlying function. -/
def convertMiddlewareToHandlers (middleware : List Mw) : List Mw :=
  middleware.map (fun m => m)

/-- The declared middleware executed for a request matched by `route`. -/
def executedChain (router : Router) (route : Route) : List Mw :=
  router.usedMiddleware ++ route.middleware

/-- Replace the first element satisfying the predicate (array mutation
through a shared reference, when the reference is known to be in the
list). -/
def updateFirst {α : Type} : List α → (α → Bool) → (α → α) → List α
  | [], _, _ => []
  | x :: xs, p, f => if p x then f x :: xs else x :: updateFirst xs p f

/-- `registerMethodRoute`: compute the full path, combine the method
record's own middleware with the separately registered method middleware
(the `push` loop mutates the array shared with the stored method record,
modelled by the `mapUpdate`), and register the route with the controller
chain first. -/
def registerMethodRoute (st : MetadataStorage) (router : Router)
    (methodMetadata : MethodMetadata) (basePath : String)
    (controllerMiddleware : List Mw) : MetadataStorage × Router :=
  let routePath := buildRoutePath [basePath, methodMetadata.path]
  let methodMiddleware := methodMetadata.middleware ++
    (getMethodMiddleware st methodMetadata.target methodMetadata.method).map
      (·.middleware)
  let key := getMethodKey methodMetadata.target methodMetadata.method
  let st1 := { st with methods := (mapUpdate st.methods key
      (fun bucket => updateFirst bucket (fun r => decide (r = methodMetadata))
        (fun r => { r with middleware := methodMiddleware }))) }
  let methodMiddlewareHandlers := convertMiddlewareToHandlers methodMiddleware
  let middleware := controllerMiddleware ++ methodMiddlewareHandlers
  let route : Route := ⟨methodMetadata.httpMethod, routePath, middleware⟩
  (st1, { router with routes := router.routes ++ [route] })

/-- The `for (const metadata of methodMetadata)` loop of
`registerControllerRoutes`. -/
def registerMethodRoutesLoop (st : MetadataStorage) (router : Router)
    (mds : List MethodMetadata) (basePath : String)
    (controllerMiddleware : List Mw) : MetadataStorage × Router :=
  match mds with
  | [] => (st, router)
  | md :: rest =>
      let p := registerMethodRoute st router md basePath controllerMiddleware
      registerMethodRoutesLoop p.1 p.2 rest basePath controllerMiddleware

/-- `registerControllerRoutes`: collect the method records, compute the
base path (`globalPrefix ? buildRoutePath(globalPrefix, prefix) :
prefix`, with falsy `""`), combine the controller record's middleware
with the separately registered controller middleware (the `push` loop
mutates the array shared with the stored controller record), and register
every method route. -/
def registerControllerRoutes (st : MetadataStorage) (router : Router)
    (controllerMetadata : ControllerMetadata)
    (globalPrefixStr : Option String) : MetadataStorage × Router :=
  let methodMetadata := getControllerMethodMetadata st controllerMetadata.target
  let basePath := match globalPrefixStr with
    | some gp =>
        if gp = "" then controllerMetadata.prefixStr
        else buildRoutePath [gp, controllerMetadata.prefixStr]
    | none => controllerMetadata.prefixStr
  let controllerMiddleware := controllerMetadata.middleware ++
    (getControllerMiddleware st controllerMetadata.target).map (·.middleware)
  let st1 := { st with controllers := (mapUpdate st.controllers
      controllerMetadata.target
      (fun r => { r with middleware := controllerMiddleware })) }
  let controllerMiddlewareHandlers :=
    convertMiddlewareToHandlers controllerMiddleware
  registerMethodRoutesLoop st1 router methodMetadata basePath
    controllerMiddlewareHandlers

/-- The error thrown for a class without a controller record. -/
def notAControllerMsg (controller : ClassRef) : String :=
  "Class \"" ++ controller.name ++
    "\" is not a controller. Did you forget to add @JSONController()?"

/-- `registerController`: the single validation gate, then route
registration, then error-handler wiring.  Controller instantiation and
the `instances` cache have no observable effect on the registry or the
router and are not modelled.  Thrown errors are the `Except` error
channel; the engine never catches. -/
def registerController (st : MetadataStorage) (router : Router)
    (controller : ClassRef) (globalPrefixStr : Option String) :
    Except String (MetadataStorage × Router) :=
  match getControllerMetadata st controller with
  | none => .error (notAControllerMsg controller)
  | some controllerMetadata =>
      let p := registerControllerRoutes st router controllerMetadata
        globalPrefixStr
      match getErrorHandlerMetadata p.1 controller with
      | some handler =>
          .ok (p.1, { p.2 with errorHandlers := p.2.errorHandlers ++ [handler] })
      | none => .ok (p.1, p.2)

/-- Options of `createRouter`. -/
structure RouterOptions where
  controllers : List ClassRef
  routePrefixStr : Option String
  middleware : Option (List Mw)

/-- The `for (const controller of options.controllers)` loop. -/
def registerControllersLoop (st : MetadataStorage) (router : Router)
    (cs : List ClassRef) (globalPrefixStr : Option String) :
    Except String (MetadataStorage × Router) :=
  match cs with
  | [] => .ok (st, router)
  | c :: rest =>
      match registerController st router c globalPrefixStr with
      | .error e => .error e
      | .ok p => registerControllersLoop p.1 p.2 rest globalPrefixStr

/-- `createRouter`: fresh router, hard-wired `express.json()`, global
middleware if non-empty, then every controller in order.  An error thrown
by `registerController` propagates out uncaught, so no router is
produced. -/
def createRouter (st : MetadataStorage) (options : RouterOptions) :
    Except String (MetadataStorage × Router) :=
  let router := { freshRouter with jsonMw := true }
  let router1 := match options.middleware with
    | some l =>
        if 0 < l.length
        then { router with usedMiddleware := router.usedMiddleware ++ l }
        else router
    | none => router
  registerControllersLoop st router1 options.controllers options.routePrefixStr

/-! ### Engine lemmas -/

lemma mapGet_mapSet {κ α : Type} [DecidableEq κ] (m : List (κ × α)) (k k' : κ)
    (v : α) :
    mapGet (mapSet m k v) k' = if k' = k then some v else mapGet m k' := by
  induction m with
  | nil =>
      by_cases h : k' = k
      · subst h; simp [mapSet, mapGet]
      · simp [mapSet, mapGet, h, Ne.symm h]
  | cons p rest ih =>
      obtain ⟨k0, v0⟩ := p
      by_cases h0 : k0 = k
      · subst h0
        by_cases h1 : k' = k0
        · subst h1; simp [mapSet, mapGet]
        · simp [mapSet, mapGet, h1, Ne.symm h1]
      · by_cases h1 : k0 = k'
        · subst h1
          simp [mapSet, mapGet, h0, Ne.symm h0]
        · simp [mapSet, mapGet, h0, h1, ih]

lemma mapGet_mapUpdate_none {κ α : Type} [DecidableEq κ] (m : List (κ × α))
    (k T : κ) (f : α → α) (h : mapGet m T = none) :
    mapGet (mapUpdate m k f) T = none := by
  induction m with
  | nil => simp [mapUpdate, mapGet]
  | cons p rest ih =>
      obtain ⟨k0, v0⟩ := p
      by_cases h0 : k0 = T
      · subst h0; simp [mapGet] at h
      · simp [mapGet, h0] at h
        by_cases h1 : k0 = k
        · subst h1
          simp [mapUpdate, mapGet, h0, h]
        · simp [mapUpdate, mapGet, h0, h1, ih h]

/-- The bucket key an `addMiddlewareMetadata` call targets. -/
def scopeKey (t : ClassRef) (scope : Option String) : String :=
  match scope with
  | some m => getMethodKey t m
  | none => getControllerKey t

lemma addMiddlewareMetadata_fields (st : MetadataStorage) (r : MiddlewareMetadata) :
    (addMiddlewareMetadata st r).controllers = st.controllers ∧
    (addMiddlewareMetadata st r).methods = st.methods ∧
    (addMiddlewareMetadata st r).parameters = st.parameters ∧
    (addMiddlewareMetadata st r).errorHandlers = st.errorHandlers :=
  ⟨rfl, rfl, rfl, rfl⟩

lemma addMiddlewareMetadata_middleware_getD (st : MetadataStorage)
    (r : MiddlewareMetadata) (k : String) :
    (mapGet (addMiddlewareMetadata st r).middleware k).getD [] =
      if k = scopeKey r.target r.method
      then (mapGet st.middleware k).getD [] ++ [r]
      else (mapGet st.middleware k).getD [] := by
  have hkey : (addMiddlewareMetadata st r).middleware =
      mapSet st.middleware (scopeKey r.target r.method)
        ((mapGet st.middleware (scopeKey r.target r.method)).getD [] ++ [r]) := by
    cases hm : r.method <;> simp [addMiddlewareMetadata, scopeKey, hm]
  rw [hkey, mapGet_mapSet]
  by_cases h : k = scopeKey r.target r.method <;> simp [h]

/-- The decorator loops that register one `MiddlewareMetadata` per
middleware function. -/
def foldAddMw (t : ClassRef) (scope : Option String) (l : List Mw)
    (st : MetadataStorage) : MetadataStorage :=
  l.foldl (fun s m => addMiddlewareMetadata s ⟨t, scope, m⟩) st

lemma foldAddMw_spec (t : ClassRef) (scope : Option String) (l : List Mw) :
    ∀ st : MetadataStorage,
      (foldAddMw t scope l st).controllers = st.controllers ∧
      (foldAddMw t scope l st).methods = st.methods ∧
      (foldAddMw t scope l st).parameters = st.parameters ∧
      (foldAddMw t scope l st).errorHandlers = st.errorHandlers ∧
      ∀ k, (mapGet (foldAddMw t scope l st).middleware k).getD [] =
        if k = scopeKey t scope
        then (mapGet st.middleware k).getD [] ++
          l.map (fun m => (⟨t, scope, m⟩ : MiddlewareMetadata))
        else (mapGet st.middleware k).getD [] := by
  induction l with
  | nil =>
      intro st
      refine ⟨rfl, rfl, rfl, rfl, ?_⟩
      intro k
      by_cases h : k = scopeKey t scope <;> simp [foldAddMw, h]
  | cons m rest ih =>
      intro st
      have hstep := addMiddlewareMetadata_fields st ⟨t, scope, m⟩
      have hfold : foldAddMw t scope (m :: rest) st =
          foldAddMw t scope rest (addMiddlewareMetadata st ⟨t, scope, m⟩) := rfl
      obtain ⟨ih1, ih2, ih3, ih4, ih5⟩ := ih (addMiddlewareMetadata st ⟨t, scope, m⟩)
      rw [hfold]
      refine ⟨by rw [ih1, hstep.1], by rw [ih2, hstep.2.1],
        by rw [ih3, hstep.2.2.1], by rw [ih4, hstep.2.2.2], ?_⟩
      intro k
      rw [ih5 k, addMiddlewareMetadata_middleware_getD st ⟨t, scope, m⟩ k]
      by_cases h : k = scopeKey t scope
      · simp [h]
      · simp [h]

/-- The route `registerMethodRoute` installs, as a function of the
storage at the time of the call. -/
def routeOf (st : MetadataStorage) (basePath : String) (cmw : List Mw)
    (md : MethodMetadata) : Route :=
  ⟨md.httpMethod, buildRoutePath [basePath, md.path],
    cmw ++ convertMiddlewareToHandlers (md.middleware ++
      (getMethodMiddleware st md.target md.method).map (·.middleware))⟩

lemma registerMethodRoute_spec (st : MetadataStorage) (router : Router)
    (md : MethodMetadata) (bp : String) (cmw : List Mw) :
    (registerMethodRoute st router md bp cmw).1.controllers = st.controllers ∧
    (registerMethodRoute st router md bp cmw).1.middleware = st.middleware ∧
    (registerMethodRoute st router md bp cmw).1.parameters = st.parameters ∧
    (registerMethodRoute st router md bp cmw).1.errorHandlers = st.errorHandlers ∧
    (registerMethodRoute st router md bp cmw).2 =
      { router with routes := router.routes ++ [routeOf st bp cmw md] } :=
  ⟨rfl, rfl, rfl, rfl, rfl⟩

lemma routeOf_congr {st st' : MetadataStorage} (h : st'.middleware = st.middleware)
    (bp : String) (cmw : List Mw) (md : MethodMetadata) :
    routeOf st' bp cmw md = routeOf st bp cmw md := by
  simp [routeOf, getMethodMiddleware, h]

lemma registerMethodRoutesLoop_spec (bp : String) (cmw : List Mw) :
    ∀ (mds : List MethodMetadata) (st : MetadataStorage) (router : Router),
      (registerMethodRoutesLoop st router mds bp cmw).1.controllers =
        st.controllers ∧
      (registerMethodRoutesLoop st router mds bp cmw).1.middleware =
        st.middleware ∧
      (registerMethodRoutesLoop st router mds bp cmw).1.parameters =
        st.parameters ∧
      (registerMethodRoutesLoop st router mds bp cmw).1.errorHandlers =
        st.errorHandlers ∧
      (registerMethodRoutesLoop st router mds bp cmw).2 =
        { router with routes := router.routes ++ mds.map (routeOf st bp cmw) } := by
  intro mds
  induction mds with
  | nil =>
      intro st router
      refine ⟨rfl, rfl, rfl, rfl, ?_⟩
      cases router
      simp [registerMethodRoutesLoop]
  | cons md rest ih =>
      intro st router
      obtain ⟨s1, s2, s3, s4, s5⟩ := registerMethodRoute_spec st router md bp cmw
      have hloop : registerMethodRoutesLoop st router (md :: rest) bp cmw =
          registerMethodRoutesLoop (registerMethodRoute st router md bp cmw).1
            (registerMethodRoute st router md bp cmw).2 rest bp cmw := rfl
      obtain ⟨i1, i2, i3, i4, i5⟩ := ih (registerMethodRoute st router md bp cmw).1
        (registerMethodRoute st router md bp cmw).2
      rw [hloop]
      refine ⟨by rw [i1, s1], by rw [i2, s2], by rw [i3, s3], by rw [i4, s4], ?_⟩
      rw [i5, s5]
      have hfun : routeOf (registerMethodRoute st router md bp cmw).1 bp cmw =
          routeOf st bp cmw :=
        funext (fun md' => routeOf_congr s2 bp cmw md')
      rw [hfun]
      cases router
      simp [List.append_assoc]

/-- The base path computed by `registerControllerRoutes`. -/
def basePathOf (gp : Option String) (cm : ControllerMetadata) : String :=
  match gp with
  | some g => if g = "" then cm.prefixStr else buildRoutePath [g, cm.prefixStr]
  | none => cm.prefixStr

/-- The effective controller middleware chain. -/
def ctrlChain (st : MetadataStorage) (cm : ControllerMetadata) : List Mw :=
  convertMiddlewareToHandlers (cm.middleware ++
    (getControllerMiddleware st cm.target).map (·.middleware))

lemma registerControllerRoutes_spec (st : MetadataStorage) (router : Router)
    (cm : ControllerMetadata) (gp : Option String) :
    (registerControllerRoutes st router cm gp).1.middleware = st.middleware ∧
    (registerControllerRoutes st router cm gp).1.parameters = st.parameters ∧
    (registerControllerRoutes st router cm gp).1.errorHandlers =
      st.errorHandlers ∧
    (∀ T, getControllerMetadata st T = none →
      getControllerMetadata (registerControllerRoutes st router cm gp).1 T = none) ∧
    (registerControllerRoutes st router cm gp).2 =
      { router with routes := (router.routes ++
        (getControllerMethodMetadata st cm.target).map
          (routeOf st (basePathOf gp cm) (ctrlChain st cm))) } := by
  have hdef : registerControllerRoutes st router cm gp =
      registerMethodRoutesLoop
        { st with controllers := (mapUpdate st.controllers cm.target
            (fun r => { r with middleware := (cm.middleware ++
              (getControllerMiddleware st cm.target).map (·.middleware)) })) }
        router (getControllerMethodMetadata st cm.target) (basePathOf gp cm)
        (ctrlChain st cm) := rfl
  obtain ⟨l1, l2, l3, l4, l5⟩ := registerMethodRoutesLoop_spec (basePathOf gp cm)
    (ctrlChain st cm) (getControllerMethodMetadata st cm.target)
    { st with controllers := (mapUpdate st.controllers cm.target
        (fun r => { r with middleware := (cm.middleware ++
          (getControllerMiddleware st cm.target).map (·.middleware)) })) }
    router
  rw [hdef]
  refine ⟨l2, l3, l4, ?_, ?_⟩
  · intro T hT
    show mapGet (registerMethodRoutesLoop _ _ _ _ _).1.controllers T = none
    rw [l1]
    exact mapGet_mapUpdate_none _ _ _ _ hT
  · rw [l5]
    have hfun : routeOf
        { st with controllers := (mapUpdate st.controllers cm.target
            (fun r => { r with middleware := (cm.middleware ++
              (getControllerMiddleware st cm.target).map (·.middleware)) })) }
        (basePathOf gp cm) (ctrlChain st cm) =
        routeOf st (basePathOf gp cm) (ctrlChain st cm) :=
      funext (fun md' => routeOf_congr rfl _ _ md')
    rw [hfun]

lemma registerController_spec (st : MetadataStorage) (router : Router)
    (T : ClassRef) (gp : Option String) (cm : ControllerMetadata)
    (hcm : getControllerMetadata st T = some cm)
    (heh : getErrorHandlerMetadata st T = none) :
    ∃ st', registerController st router T gp = .ok (st',
      { router with routes := (router.routes ++
        (getControllerMethodMetadata st cm.target).map
          (routeOf st (basePathOf gp cm) (ctrlChain st cm))) }) ∧
      st'.middleware = st.middleware ∧
      st'.errorHandlers = st.errorHandlers ∧
      (∀ T', getControllerMetadata st T' = none →
        getControllerMetadata st' T' = none) := by
  obtain ⟨r1, r2, r3, r4, r5⟩ := registerControllerRoutes_spec st router cm gp
  have hehp : getErrorHandlerMetadata
      (registerControllerRoutes st router cm gp).1 T = none := by
    show mapGet (registerControllerRoutes st router cm gp).1.errorHandlers T = none
    rw [r3]
    exact heh
  refine ⟨(registerControllerRoutes st router cm gp).1, ?_, r1, r3, r4⟩
  simp only [registerController, hcm, hehp]
  rw [r5]

lemma registerController_ok_first (st : MetadataStorage) (router : Router)
    (c : ClassRef) (gp : Option String) (p : MetadataStorage × Router)
    (hreg : registerController st router c gp = .ok p) :
    ∃ cm, getControllerMetadata st c = some cm ∧
      p.1 = (registerControllerRoutes st router cm gp).1 := by
  cases hcm : getControllerMetadata st c with
  | none =>
      unfold registerController at hreg
      rw [hcm] at hreg
      simp at hreg
  | some cm =>
      refine ⟨cm, rfl, ?_⟩
      cases heh : getErrorHandlerMetadata
          (registerControllerRoutes st router cm gp).1 c with
      | some h0 =>
          have hcalc : registerController st router c gp =
              .ok ((registerControllerRoutes st router cm gp).1,
                { (registerControllerRoutes st router cm gp).2 with
                  errorHandlers :=
                    ((registerControllerRoutes st router cm gp).2.errorHandlers ++
                      [h0]) }) := by
            simp only [registerController, hcm, heh]
          have hpair := Except.ok.inj (hcalc.symm.trans hreg)
          rw [← hpair]
      | none =>
          have hcalc : registerController st router c gp =
              .ok ((registerControllerRoutes st router cm gp).1,
                (registerControllerRoutes st router cm gp).2) := by
            simp only [registerController, hcm, heh]
          have hpair := Except.ok.inj (hcalc.symm.trans hreg)
          rw [← hpair]

lemma registerController_ok_preserves (st : MetadataStorage) (router : Router)
    (c : ClassRef) (gp : Option String) (p : MetadataStorage × Router)
    (hreg : registerController st router c gp = .ok p) (T : ClassRef)
    (hnone : getControllerMetadata st T = none) :
    getControllerMetadata p.1 T = none := by
  obtain ⟨cm, _, hfirst⟩ := registerController_ok_first st router c gp p hreg
  rw [hfirst]
  exact (registerControllerRoutes_spec st router cm gp).2.2.2.1 T hnone

lemma registerControllersLoop_error (T : ClassRef) :
    ∀ (cs : List ClassRef) (st : MetadataStorage) (router : Router)
      (gp : Option String), T ∈ cs → getControllerMetadata st T = none →
      ∃ msg, registerControllersLoop st router cs gp = .error msg := by
  intro cs
  induction cs with
  | nil => intro st router gp hmem; simp at hmem
  | cons c rest ih =>
      intro st router gp hmem hnone
      cases hreg : registerController st router c gp with
      | error e => exact ⟨e, by simp [registerControllersLoop, hreg]⟩
      | ok p =>
          rcases List.mem_cons.mp hmem with hTc | hTrest
          · subst hTc
            rw [registerController, hnone] at hreg
            simp at hreg
          · obtain ⟨msg, hmsg⟩ := ih p.1 p.2 gp hTrest
              (registerController_ok_preserves st router c gp p hreg T hnone)
            exact ⟨msg, by simp [registerControllersLoop, hreg, hmsg]⟩

/-- C9: invoking `registerController` with a class that has no controller
record throws synchronously an error whose message names the class and
says it is not a controller; through `createRouter` the error propagates
uncaught, so no router is produced and no route is installed. -/
theorem controller_gate_c9 (st : MetadataStorage) (router : Router)
    (T : ClassRef) (gp : Option String) (opts : RouterOptions)
    (h : getControllerMetadata st T = none) (hmem : T ∈ opts.controllers) :
    registerController st router T gp = .error (notAControllerMsg T) ∧
    notAControllerMsg T = "Class \"" ++ T.name ++
      "\" is not a controller. Did you forget to add @JSONController()?" ∧
    (∃ msg, createRouter st opts = .error msg) ∧
    (opts.controllers.head? = some T →
      createRouter st opts = .error (notAControllerMsg T)) := by
  refine ⟨by simp [registerController, h], rfl, ?_, ?_⟩
  · obtain ⟨msg, hmsg⟩ := registerControllersLoop_error T opts.controllers st _
      opts.routePrefixStr hmem h
    exact ⟨msg, hmsg⟩
  · intro hh
    cases hcs : opts.controllers with
    | nil => rw [hcs] at hh; simp at hh
    | cons c rest =>
        rw [hcs] at hh
        simp at hh
        subst hh
        simp [createRouter, hcs, registerControllersLoop, registerController, h]

/-- C9, witness: a never-decorated class at an empty registry. -/
theorem controller_gate_c9_witness :
    getControllerMetadata emptyStorage ⟨0, "NotAController", []⟩ = none ∧
    (⟨0, "NotAController", []⟩ : ClassRef) ∈
      [(⟨0, "NotAController", []⟩ : ClassRef)] ∧
    (registerController emptyStorage freshRouter ⟨0, "NotAController", []⟩ none =
      .error (notAControllerMsg ⟨0, "NotAController", []⟩) ∧
    notAControllerMsg ⟨0, "NotAController", []⟩ = "Class \"" ++
      (⟨0, "NotAController", []⟩ : ClassRef).name ++
      "\" is not a controller. Did you forget to add @JSONController()?" ∧
    (∃ msg, createRouter emptyStorage ⟨[⟨0, "NotAController", []⟩], none, none⟩ =
      .error msg) ∧
    (([(⟨0, "NotAController", []⟩ : ClassRef)]).head? =
        some ⟨0, "NotAController", []⟩ →
      createRouter emptyStorage ⟨[⟨0, "NotAController", []⟩], none, none⟩ =
        .error (notAControllerMsg ⟨0, "NotAController", []⟩))) :=
  ⟨rfl, by decide,
    controller_gate_c9 emptyStorage freshRouter ⟨0, "NotAController", []⟩ none
      ⟨[⟨0, "NotAController", []⟩], none, none⟩ rfl (by decide)⟩

/-! ### Claims C5 and C1 (concrete scenarios) -/

/-- The controller class of the C5 scenario. -/
def c5Ctrl : ClassRef := ⟨0, "AController", ["getIt"]⟩

/-- Declaration phase of the C5 scenario: controller decorated with one
middleware `7`, method `getIt` with route `/x` and one `UseMiddleware`
middleware `9`. -/
def c5World : World :=
  UseMiddleware [9] c5Ctrl (some "getIt")
    (Get (Sum.inl "/x") c5Ctrl "getIt"
      (JSONController (Sum.inr ⟨some "/a", some [7]⟩) c5Ctrl emptyWorld))

/-- C5: route registration MUTATES the registry records.  The `push` into
the aliased middleware arrays makes the stored controller record grow
from `[7]` to `[7, 7]` (its own list concatenated with the mirrored
middleware record) and the stored method record from `[]` to `[9]`; a
second registration grows them again and produces a longer chain
(`[7,7,7,9,9]`) than the first (`[7,7,9]`). -/
theorem registration_mutates_records_c5 :
    getControllerMetadata c5World.storage c5Ctrl = some ⟨c5Ctrl, "/a", [7]⟩ ∧
    getControllerMethodMetadata c5World.storage c5Ctrl =
      [⟨c5Ctrl, "getIt", "get", "/x", []⟩] ∧
    (∃ st1 r1, createRouter c5World.storage ⟨[c5Ctrl], none, none⟩ = .ok (st1, r1) ∧
      getControllerMetadata st1 c5Ctrl = some ⟨c5Ctrl, "/a", [7, 7]⟩ ∧
      getControllerMethodMetadata st1 c5Ctrl =
        [⟨c5Ctrl, "getIt", "get", "/x", [9]⟩] ∧
      r1.routes = [⟨"get", "/a/x", [7, 7, 9]⟩] ∧
      (∃ st2 r2, createRouter st1 ⟨[c5Ctrl], none, none⟩ = .ok (st2, r2) ∧
        getControllerMetadata st2 c5Ctrl = some ⟨c5Ctrl, "/a", [7, 7, 7]⟩ ∧
        getControllerMethodMetadata st2 c5Ctrl =
          [⟨c5Ctrl, "getIt", "get", "/x", [9, 9]⟩] ∧
        r2.routes = [⟨"get", "/a/x", [7, 7, 7, 9, 9]⟩])) :=
  ⟨rfl, rfl, ⟨_, _, rfl, rfl, rfl, rfl, ⟨_, _, rfl, rfl, rfl, rfl⟩⟩⟩

/-- The controller class of the C1 scenario. -/
def c1Ctrl : ClassRef := ⟨0, "MiddlewareController", ["getTest"]⟩

/-- Declaration phase of the C1 scenario: controller middleware list `C`
via the controller decorator, method middleware list `M` via the `Get`
decorator. -/
def c1World (C M : List Mw) : World :=
  Get (Sum.inr ⟨some "/test", some M⟩) c1Ctrl "getTest"
    (JSONController (Sum.inr ⟨some "/middleware", some C⟩) c1Ctrl emptyWorld)

/-- Bootstrap of the C1 scenario: `createRouter` with global middleware
`G`. -/
def c1Result (G C M : List Mw) : Except String (MetadataStorage × Router) :=
  createRouter (c1World C M).storage ⟨[c1Ctrl], none, some G⟩

/-- C1, counterexample: with global `[1]`, controller `[2]` (declared via
the controller decorator) and method `[3]`, the chain executed for the
route is `[1, 2, 2, 3]`, not `[1, 2, 3]`: the controller middleware runs
twice, because the controller decorator registers it both in the
controller record and as a separate middleware record, and the engine
concatenates both. -/
theorem middleware_order_c1_counterexample :
    (∃ st1, c1Result [1] [2] [3] =
      .ok (st1, ⟨true, [1], [⟨"get", "/middleware/test", [2, 2, 3]⟩], []⟩)) ∧
    executedChain ⟨true, [1], [⟨"get", "/middleware/test", [2, 2, 3]⟩], []⟩
      ⟨"get", "/middleware/test", [2, 2, 3]⟩ = [1, 2, 2, 3] ∧
    [1, 2, 2, 3] ≠ [1, 2, 3] ∧
    List.count 2 [1, 2, 2, 3] = 2 :=
  ⟨⟨_, rfl⟩, rfl, by decide, by decide⟩

lemma convertMiddlewareToHandlers_eq (l : List Mw) :
    convertMiddlewareToHandlers l = l := by
  simp [convertMiddlewareToHandlers]

lemma registerControllersLoop_single (st : MetadataStorage) (router : Router)
    (T : ClassRef) (gp : Option String) (cm : ControllerMetadata)
    (hcm : getControllerMetadata st T = some cm)
    (heh : getErrorHandlerMetadata st T = none) :
    ∃ st', registerControllersLoop st router [T] gp = .ok (st',
      { router with routes := (router.routes ++
        (getControllerMethodMetadata st cm.target).map
          (routeOf st (basePathOf gp cm) (ctrlChain st cm))) }) := by
  obtain ⟨st', hreg, -, -, -⟩ := registerController_spec st router T gp cm hcm heh
  exact ⟨st', by simp [registerControllersLoop, hreg]⟩

lemma createRouter_single (st : MetadataStorage) (T : ClassRef)
    (gp : Option String) (G : List Mw) (cm : ControllerMetadata)
    (hcm : getControllerMetadata st T = some cm)
    (heh : getErrorHandlerMetadata st T = none) :
    ∃ st', createRouter st ⟨[T], gp, some G⟩ = .ok (st',
      ⟨true, G, (getControllerMethodMetadata st cm.target).map
        (routeOf st (basePathOf gp cm) (ctrlChain st cm)), []⟩) := by
  cases G with
  | nil =>
      have hcr : createRouter st ⟨[T], gp, some []⟩ =
          registerControllersLoop st ⟨true, [], [], []⟩ [T] gp := rfl
      obtain ⟨st', hloop⟩ := registerControllersLoop_single st
        ⟨true, [], [], []⟩ T gp cm hcm heh
      refine ⟨st', ?_⟩
      rw [hcr, hloop]
      simp
  | cons g gs =>
      have hcr : createRouter st ⟨[T], gp, some (g :: gs)⟩ =
          registerControllersLoop st ⟨true, g :: gs, [], []⟩ [T] gp := by
        simp [createRouter, freshRouter]
      obtain ⟨st', hloop⟩ := registerControllersLoop_single st
        ⟨true, g :: gs, [], []⟩ T gp cm hcm heh
      refine ⟨st', ?_⟩
      rw [hcr, hloop]
      simp

lemma c1World_facts (C M : List Mw) :
    getControllerMetadata (c1World C M).storage c1Ctrl =
      some ⟨c1Ctrl, "/middleware", C⟩ ∧
    getControllerMethodMetadata (c1World C M).storage c1Ctrl =
      [⟨c1Ctrl, "getTest", "get", "/test", M⟩] ∧
    getControllerMiddleware (c1World C M).storage c1Ctrl =
      C.map (fun m => (⟨c1Ctrl, none, m⟩ : MiddlewareMetadata)) ∧
    getMethodMiddleware (c1World C M).storage c1Ctrl "getTest" = [] ∧
    getErrorHandlerMetadata (c1World C M).storage c1Ctrl = none := by
  have hW : (c1World C M).storage =
      addMethodMetadata
        (foldAddMw c1Ctrl none C
          (addControllerMetadata emptyStorage ⟨c1Ctrl, "/middleware", C⟩))
        ⟨c1Ctrl, "getTest", "get", "/test", M⟩ := rfl
  obtain ⟨f1, f2, f3, f4, f5⟩ := foldAddMw_spec c1Ctrl none C
    (addControllerMetadata emptyStorage ⟨c1Ctrl, "/middleware", C⟩)
  refine ⟨?_, ?_, ?_, ?_, ?_⟩
  · show mapGet (c1World C M).storage.controllers c1Ctrl = _
    rw [hW]
    show mapGet (foldAddMw c1Ctrl none C
      (addControllerMetadata emptyStorage ⟨c1Ctrl, "/middleware", C⟩)).controllers
      c1Ctrl = _
    rw [f1]
    rfl
  · rw [hW]
    show (c1Ctrl.protoMethods.map (fun m =>
      (mapGet (addMethodMetadata _ _).methods (getMethodKey c1Ctrl m)).getD [])).flatten = _
    have hmeth : (addMethodMetadata
        (foldAddMw c1Ctrl none C
          (addControllerMetadata emptyStorage ⟨c1Ctrl, "/middleware", C⟩))
        ⟨c1Ctrl, "getTest", "get", "/test", M⟩).methods =
        mapSet (foldAddMw c1Ctrl none C
          (addControllerMetadata emptyStorage ⟨c1Ctrl, "/middleware", C⟩)).methods
          "MiddlewareController_getTest"
          (((mapGet (foldAddMw c1Ctrl none C
            (addControllerMetadata emptyStorage ⟨c1Ctrl, "/middleware", C⟩)).methods
            "MiddlewareController_getTest").getD []) ++
            [⟨c1Ctrl, "getTest", "get", "/test", M⟩]) := rfl
    rw [hmeth, f2]
    rfl
  · show (mapGet (c1World C M).storage.middleware (getControllerKey c1Ctrl)).getD [] = _
    rw [hW]
    show (mapGet (foldAddMw c1Ctrl none C
      (addControllerMetadata emptyStorage ⟨c1Ctrl, "/middleware", C⟩)).middleware
      (getControllerKey c1Ctrl)).getD [] = _
    rw [f5 (getControllerKey c1Ctrl)]
    have hkeq : getControllerKey c1Ctrl = scopeKey c1Ctrl none := rfl
    rw [if_pos hkeq]
    rfl
  · show (mapGet (c1World C M).storage.middleware
      (getMethodKey c1Ctrl "getTest")).getD [] = _
    rw [hW]
    show (mapGet (foldAddMw c1Ctrl none C
      (addControllerMetadata emptyStorage ⟨c1Ctrl, "/middleware", C⟩)).middleware
      (getMethodKey c1Ctrl "getTest")).getD [] = _
    rw [f5 (getMethodKey c1Ctrl "getTest")]
    rw [if_neg (by decide)]
    rfl
  · show mapGet (c1World C M).storage.errorHandlers c1Ctrl = _
    rw [hW]
    show mapGet (foldAddMw c1Ctrl none C
      (addControllerMetadata emptyStorage ⟨c1Ctrl, "/middleware", C⟩)).errorHandlers
      c1Ctrl = _
    rw [f4]
    rfl

/-- C1, amended: for every global list `G`, controller-decorator list `C`
and method-decorator list `M`, the single registered route carries the
chain `(C ++ C) ++ M` and a request to it runs `G ++ C ++ C ++ M`: the
tiers stay in the order global, controller, method, and within each tier
declaration order is kept, but each controller-decorator middleware runs
twice — once from the controller record and once from the middleware
record the controller decorator also emits — while global and method
middleware run once. -/
theorem middleware_order_c1_amended (G C M : List Mw) :
    ∃ st', c1Result G C M = .ok (st',
      ⟨true, G, [⟨"get", "/middleware/test", (C ++ C) ++ M⟩], []⟩) ∧
      executedChain ⟨true, G, [⟨"get", "/middleware/test", (C ++ C) ++ M⟩], []⟩
        ⟨"get", "/middleware/test", (C ++ C) ++ M⟩ = G ++ (C ++ C) ++ M := by
  obtain ⟨hA, hB, hC, hD, hE⟩ := c1World_facts C M
  obtain ⟨st', hcr⟩ := createRouter_single (c1World C M).storage c1Ctrl none G
    ⟨c1Ctrl, "/middleware", C⟩ hA hE
  have hroute : (getControllerMethodMetadata (c1World C M).storage
      (⟨c1Ctrl, "/middleware", C⟩ : ControllerMetadata).target).map
      (routeOf (c1World C M).storage
        (basePathOf none ⟨c1Ctrl, "/middleware", C⟩)
        (ctrlChain (c1World C M).storage ⟨c1Ctrl, "/middleware", C⟩)) =
      [⟨"get", "/middleware/test", (C ++ C) ++ M⟩] := by
    have hchain : ctrlChain (c1World C M).storage ⟨c1Ctrl, "/middleware", C⟩ =
        C ++ C := by
      rw [ctrlChain, convertMiddlewareToHandlers_eq]
      show C ++ (getControllerMiddleware (c1World C M).storage c1Ctrl).map
        (·.middleware) = C ++ C
      rw [hC, List.map_map]
      have hcomp : ((fun x : MiddlewareMetadata => x.middleware) ∘
          fun m => (⟨c1Ctrl, none, m⟩ : MiddlewareMetadata)) = fun m => m := rfl
      rw [hcomp]
      simp
    show (getControllerMethodMetadata (c1World C M).storage c1Ctrl).map _ = _
    rw [hB, hchain]
    simp only [List.map_cons, List.map_nil]
    rw [routeOf]
    show [(⟨"get", buildRoutePath ["/middleware", "/test"],
      (C ++ C) ++ convertMiddlewareToHandlers (M ++
        (getMethodMiddleware (c1World C M).storage c1Ctrl "getTest").map
          (·.middleware))⟩ : Route)] = _
    rw [hD, convertMiddlewareToHandlers_eq]
    simp
    decide
  rw [hroute] at hcr
  refine ⟨st', ?_, ?_⟩
  · exact hcr
  · simp [executedChain, List.append_assoc]

end Dunamis
